import Mathlib

/-!
Verification of the perpscope position-tracking bot.

The untyped JSON payloads the bot manipulates are modelled by `JValue`;
Python-level operations (truthiness, `float(...)`, `in`, `dict.get`) are
modelled by explicit total functions returning `Option` where the Python
operation can raise.  Numbers are modelled by `ℚ` (the code's arithmetic on
the values the spec discusses is exact).
-/

namespace Perpscope

/-- Untyped JSON-like values as handled by the bot. -/
inductive JValue where
  | null
  | bool (b : Bool)
  | num (x : ℚ)
  | str (s : String)
  | arr (xs : List JValue)
  | obj (fields : List (String × JValue))

/-- Python `==` on the scalar (hashable) values this code compares: bools equal
the numbers 0/1 (bool is an int subclass), numbers compare by value, strings by
contents; scalars of different kinds, and containers, are unequal.  The code
only ever applies `==` with at least one scalar operand (dict keys, string
comparisons), so container-container equality never arises. -/
def scalarEq (a b : JValue) : Bool :=
  match a, b with
  | .null, .null => true
  | .bool x, .bool y => x = y
  | .bool x, .num y => (if x then (1 : ℚ) else 0) = y
  | .num x, .bool y => x = (if y then (1 : ℚ) else 0)
  | .num x, .num y => x = y
  | .str x, .str y => x = y
  | _, _ => false

/-- Python truthiness (`if x:`). -/
def jTruthy : JValue → Bool
  | .null => false
  | .bool b => b
  | .num x => decide (x ≠ 0)
  | .str s => !s.toList.isEmpty
  | .arr xs => !xs.isEmpty
  | .obj fs => !fs.isEmpty

/-- First binding of key `k` in a dict (Python dicts have unique keys). -/
def lookupField (fields : List (String × JValue)) (k : String) : Option JValue :=
  (fields.find? (fun p => p.1 = k)).map (fun p => p.2)

/-- `k in d` for a dict `d`. -/
def hasKey (fields : List (String × JValue)) (k : String) : Bool :=
  fields.any (fun p => p.1 = k)

/-- `d.get(k, dflt)`. -/
def pyGet (fields : List (String × JValue)) (k : String) (dflt : JValue) : JValue :=
  (lookupField fields k).getD dflt

/-- Nonempty and all ASCII digits (`str.isdigit` on this code's inputs). -/
def isDigitList (cs : List Char) : Bool := !cs.isEmpty && cs.all Char.isDigit

/-- `str.isdigit()` as this code applies it. -/
def isDigits (s : String) : Bool := isDigitList s.toList

/-- Remove the first occurrence of `c` from a character list. -/
def dropFirstChar (c : Char) : List Char → List Char
  | [] => []
  | x :: xs => if x = c then xs else x :: dropFirstChar c xs

/-- `s.replace(".", "", 1)` as used by the digit-check in bot.py. -/
def removeFirstDot (s : String) : String := String.mk (dropFirstChar '.' s.toList)

/-- Numeric value of a digit list (most significant first). -/
def digitsVal (cs : List Char) : ℕ := cs.foldl (fun n c => 10 * n + (c.toNat - 48)) 0

/-- Split a character list at every dot. -/
def splitOnDot : List Char → List (List Char)
  | [] => [[]]
  | c :: rest =>
    if c = '.' then [] :: splitOnDot rest
    else
      match splitOnDot rest with
      | [] => [[c]]
      | g :: gs => (c :: g) :: gs

/-- Strip surrounding whitespace. -/
def trimChars (cs : List Char) : List Char :=
  ((cs.dropWhile Char.isWhitespace).reverse.dropWhile Char.isWhitespace).reverse

/-- The unsigned plain-decimal fragment accepted by Python `float(str)`:
digits with at most one dot and at least one digit ("12", "12.5", "12.", ".5").
Exponents, inf/nan and underscores never arise from this code's JSON inputs
and are omitted from the model. -/
def parseUnsignedDec (cs : List Char) : Option ℚ :=
  match splitOnDot cs with
  | [a] => if isDigitList a then some (digitsVal a : ℚ) else none
  | [a, b] =>
      if isDigitList a && isDigitList b then
        some ((digitsVal a : ℚ) + (digitsVal b : ℚ) / (10 : ℚ) ^ b.length)
      else if isDigitList a && b.isEmpty then some (digitsVal a : ℚ)
      else if a.isEmpty && isDigitList b then some ((digitsVal b : ℚ) / (10 : ℚ) ^ b.length)
      else none
  | _ => none

/-- Python `float(s)` on a string: strip whitespace, optional sign, plain
decimal; `none` models `ValueError`. -/
def pyFloatStr (s : String) : Option ℚ :=
  match trimChars s.toList with
  | '-' :: rest => (parseUnsignedDec rest).map Neg.neg
  | '+' :: rest => parseUnsignedDec rest
  | cs => parseUnsignedDec cs

/-- Python `float(x)`: numbers pass through, bools are 0/1 (bool is an int
subclass), strings parse; every other type raises `TypeError` (`none`). -/
def pyFloat : JValue → Option ℚ
  | .num x => some x
  | .bool b => some (if b then 1 else 0)
  | .str s => pyFloatStr s
  | _ => none

/-- The normalized record built by `utils.extract_position_data`. -/
structure PositionData where
  coin : JValue
  size : ℚ
  entry_price : ℚ
  leverage : ℚ
  unrealized_pnl : ℚ
  liquidation_price : ℚ

/-- The `pos_details` resolution in `utils.extract_position_data`:
`pos_details = position.get('position', {})`, then if that is falsy and
`'szi' in position` the flat record itself is used.  `none` models the
`AttributeError` raised by `.get` on a non-dict value, which the outer
handler turns into a `None` return. -/
def posDetails (position : List (String × JValue)) : Option (List (String × JValue)) :=
  let pd0 := pyGet position "position" (.obj [])
  let pd1 := if !jTruthy pd0 && hasKey position "szi" then .obj position else pd0
  match pd1 with
  | .obj pd => some pd
  | _ => none

/-- `utils.extract_position_data`.  Each of szi/entryPx/leverage/unrealizedPnl is
parsed inside its own `except (TypeError, ValueError)` which falls back to the
field default; the `float` applied to `liquidationPx` is NOT guarded, so a
present-but-unparsable `liquidationPx` raises, and the outer handler returns
`None` (modelled by `none`). -/
def extract_position_data (position : List (String × JValue)) : Option PositionData :=
  match posDetails position with
  | none => none
  | some pd =>
    let coin := pyGet position "coin" (.str "Unknown")
    let size := (pyFloat (pyGet pd "szi" (.num 0))).getD 0
    let entry_price := (pyFloat (pyGet pd "entryPx" (.num 0))).getD 0
    let leverage := (pyFloat (pyGet pd "leverage" (.num 1))).getD 1
    let unrealized_pnl := (pyFloat (pyGet position "unrealizedPnl" (.num 0))).getD 0
    if hasKey pd "liquidationPx" then
      match pyFloat (pyGet pd "liquidationPx" (.num 0)) with
      | some q => some ⟨coin, size, entry_price, leverage, unrealized_pnl, q⟩
      | none => none
    else
      some ⟨coin, size, entry_price, leverage, unrealized_pnl, 0⟩

/-! ### The inline extraction in bot.py's position rendering (handle_callback) -/

/-- The coin lookup in handle_callback: prefer a truthy top-level `coin` that is
not the "Unknown" sentinel; otherwise take `coin` from a nested `position`
dict when present; if the result is still falsy, fall back to "BTC". -/
def botCoin (position : List (String × JValue)) : JValue :=
  let coin0 := pyGet position "coin" .null
  if !jTruthy coin0 || scalarEq coin0 (.str "Unknown") then
    let pd := pyGet position "position" (.obj [])
    let coin1 :=
      match pd with
      | .obj fs => if hasKey fs "coin" then pyGet fs "coin" .null else coin0
      | _ => coin0
    if !jTruthy coin1 then .str "BTC" else coin1
  else coin0

/-- The sub-value filter in handle_callback's dict scan:
`v is not None and (isinstance(v, (int, float)) or (isinstance(v, str) and
v.replace('.', '', 1).isdigit()))`.  Bools are ints in Python; the digits this
code meets are ASCII. -/
def scanOk : JValue → Bool
  | .num _ => true
  | .bool _ => true
  | .str s => isDigits (removeFirstDot s)
  | _ => false

/-- The numeric-field pattern handle_callback repeats for szi/entryPx/leverage:
start from the default; an absent or None value keeps it; a dict is scanned for
the first sub-value passing `scanOk` (whose `float` is then used); any other
value goes through `float`; `TypeError`/`ValueError` falls back to the
default. -/
def botNumField (value : Option JValue) (dflt : ℚ) : ℚ :=
  match value with
  | none => dflt
  | some .null => dflt
  | some (.obj fs) =>
      match fs.find? (fun p => scanOk p.2) with
      | some p => (pyFloat p.2).getD dflt
      | none => dflt
  | some v => (pyFloat v).getD dflt

/-- The PnL-derivation step in handle_callback: when the probed PnL is still
zero and both entry and current price are positive, derive it from the price
difference; `direction` is "Long" exactly when size > 0 (zero-size records were
skipped earlier) and `size_abs = abs(size)`. -/
def derivePnl (unrealized_pnl entry_price current_price size : ℚ) : ℚ :=
  if unrealized_pnl = 0 ∧ entry_price > 0 ∧ current_price > 0 then
    (current_price - entry_price) * |size| * (if size > 0 then 1 else -1)
  else unrealized_pnl

/-- The liquidation-price estimate in handle_callback: when the probed value is
still zero, entry price is positive and leverage exceeds 1, apply the fixed
approximation (0.9 = 9/10). -/
def estimateLiq (liquidation_price entry_price leverage size : ℚ) : ℚ :=
  if liquidation_price = 0 ∧ entry_price > 0 ∧ leverage > 1 then
    if size > 0 then entry_price * (1 - (9/10) / leverage)
    else entry_price * (1 + (9/10) / leverage)
  else liquidation_price

/-! ### get_account_info and its fallbacks -/

/-- config.SAMPLE_ACCOUNT_DATA, the fixed development fallback dataset. -/
def SAMPLE_ACCOUNT_DATA : JValue :=
  .obj [
    ("marginSummary", .obj [
      ("accountValue", .str "327916.95555"), ("totalNtlPos", .str "892655.67336"),
      ("totalRawUsd", .str "485816.62891"), ("totalMarginUsed", .str "248568.157786")]),
    ("crossMarginSummary", .obj [
      ("accountValue", .str "327916.95555"), ("totalNtlPos", .str "892655.67336"),
      ("totalRawUsd", .str "485816.62891"), ("totalMarginUsed", .str "248568.157786")]),
    ("assetPositions", .arr [
      .obj [("type", .str "oneWay"),
        ("position", .obj [
          ("coin", .str "HYPE"), ("szi", .str "-33546.92"),
          ("leverage", .obj [("type", .str "cross"), ("value", .num 3)]),
          ("entryPx", .str "16.2323"), ("positionValue", .str "525277.67336"),
          ("unrealizedPnl", .str "19268.6216"), ("liquidationPx", .str "20.8609356408")])],
      .obj [("type", .str "oneWay"),
        ("position", .obj [
          ("coin", .str "BERA"), ("szi", .str "55000.0"),
          ("leverage", .obj [("type", .str "cross"), ("value", .num 5)]),
          ("entryPx", .str "8.41613"), ("positionValue", .str "367378.0"),
          ("unrealizedPnl", .str "-95509.50483"), ("liquidationPx", .str "2.565804512")])]])]

/-- The per-element rebuild in the v2 branch: each list element must be a dict
(`.get` on anything else raises, failing the whole attempt). -/
def v2Rebuild (pos : JValue) : Option JValue :=
  match pos with
  | .obj fs => some (JValue.obj [
      ("coin", pyGet fs "coin" (.str "Unknown")),
      ("position", .obj [
        ("coin", pyGet fs "coin" (.str "Unknown")),
        ("szi", pyGet fs "szi" (.num 0)),
        ("entryPx", pyGet fs "entryPx" (.num 0)),
        ("leverage", pyGet fs "leverage" (.num 1))]),
      ("unrealizedPnl", pyGet fs "unrealizedPnl" (.num 0))])
  | _ => none

/-- The v2-endpoint branch of get_account_info, as a function of the parsed
200-response body (`none` = network error, non-200 status or JSON failure): a
non-empty list body is rebuilt element-wise into an assetPositions payload;
any other body falls through (`none`), as does the `AttributeError` from
`.get` on a non-dict element (caught by the branch's handler). -/
def v2Attempt (resp : Option JValue) : Option JValue :=
  match resp with
  | some (.arr data) =>
    if data.isEmpty then none
    else (data.mapM v2Rebuild).map (fun l => JValue.obj [("assetPositions", .arr l)])
  | _ => none

/-- The clearinghouseState branch of get_account_info: the body is returned
only when it is a truthy dict containing "assetPositions". -/
def chAttempt (resp : Option JValue) : Option JValue :=
  match resp with
  | some (.obj fs) =>
    if !fs.isEmpty && hasKey fs "assetPositions" then some (.obj fs) else none
  | _ => none

/-- bot.get_account_info as a function of the outcomes of its three attempts
(the third argument is scrape_hyperliquid_data's return value, kept when
truthy): the first usable attempt wins and the fixed sample dataset is the
final fallback. -/
def get_account_info (v2resp chresp scrapeResult : Option JValue) : JValue :=
  match v2Attempt v2resp with
  | some payload => payload
  | none =>
    match chAttempt chresp with
    | some payload => payload
    | none =>
      match scrapeResult with
      | some r => if jTruthy r then r else SAMPLE_ACCOUNT_DATA
      | none => SAMPLE_ACCOUNT_DATA

/-! ### The merge section of scrape_hyperliquid_data -/

/-- Whether the first list starts with the second. -/
def startsWithChars : List Char → List Char → Bool
  | _, [] => true
  | [], _ :: _ => false
  | a :: as, b :: bs => a = b && startsWithChars as bs

/-- Whether the second list occurs inside the first. -/
def occursIn : List Char → List Char → Bool
  | hay, needle =>
    match hay with
    | [] => needle.isEmpty
    | _ :: rest => startsWithChars hay needle || occursIn rest needle

/-- `needle in s` on strings: substring test. -/
def strContains (s needle : String) : Bool := occursIn s.toList needle.toList

/-- Python `needle in container` for a string needle: key test on dicts,
element test on lists (only an equal string element matches), substring test on
strings; `TypeError` (`none`) on numbers/bools/None. -/
def pyContains (needle : String) : JValue → Option Bool
  | .obj fs => some (hasKey fs needle)
  | .arr xs => some (xs.any (fun v => scalarEq v (.str needle)))
  | .str s => some (strContains s needle)
  | _ => none

/-- True for values Python can hash (usable as dict keys); lists and dicts
raise `TypeError`. -/
def hashable : JValue → Bool
  | .arr _ => false
  | .obj _ => false
  | _ => true

/-- The pnl_by_coin dict: insertion-ordered keys with Python `==` lookup. -/
abbrev PnlIndex := List (JValue × ℚ)

/-- `pnl_by_coin[coin] = v`: replace an existing equal key in place, else
append. -/
def indexInsert (idx : PnlIndex) (k : JValue) (v : ℚ) : PnlIndex :=
  if idx.any (fun p => scalarEq p.1 k) then
    idx.map (fun p => if scalarEq p.1 k then (p.1, v) else p)
  else idx ++ [(k, v)]

/-- `coin in pnl_by_coin` / `pnl_by_coin[coin]`. -/
def indexLookup (idx : PnlIndex) (k : JValue) : Option ℚ :=
  (idx.find? (fun p => scalarEq p.1 k)).map (fun p => p.2)

/-- `d[k] = v` on a record dict: replace in place or append. -/
def objSet (fs : List (String × JValue)) (k : String) (v : JValue) :
    List (String × JValue) :=
  if hasKey fs k then fs.map (fun p => if p.1 = k then (k, v) else p)
  else fs ++ [(k, v)]

/-- Python iteration (`for x in v`): lists yield elements, dicts their keys,
strings their 1-character substrings; `TypeError` (`none`) otherwise. -/
def pyIter : JValue → Option (List JValue)
  | .arr xs => some xs
  | .obj fs => some (fs.map (fun p => JValue.str p.1))
  | .str s => some (s.toList.map (fun c => JValue.str (String.mk [c])))
  | _ => none

/-- One element of a flat "positions" source body: when both keys are present,
record coin → float(unrealizedPnl) in the index.  `none` models an exception
escaping to the scrape's outer handler (indexing a non-dict that passed the
membership tests, an unhashable coin, or an unparsable unrealizedPnl). -/
def positionsStep (idx : PnlIndex) (pos : JValue) : Option PnlIndex := do
  let hasCoin ← pyContains "coin" pos
  if !hasCoin then return idx
  let hasPnl ← pyContains "unrealizedPnl" pos
  if !hasPnl then return idx
  match pos with
  | .obj fs =>
    let coin := pyGet fs "coin" .null
    if hashable coin then do
      let v ← pyFloat (pyGet fs "unrealizedPnl" (.num 0))
      return indexInsert idx coin v
    else none
  | _ => none

/-- One account-state record in the scrape merge: when its coin is indexed and
its own unrealizedPnl is missing or parses to zero, overwrite the PnL from the
index.  `none` models an exception escaping to the scrape's outer handler
(`.get` on a non-dict record, an unhashable coin, or an unparsable
unrealizedPnl). -/
def accountStep (idx : PnlIndex) (pos : JValue) : Option JValue :=
  match pos with
  | .obj fs =>
    let coin := pyGet fs "coin" (.str "Unknown")
    if hashable coin then
      match indexLookup idx coin with
      | some pnl =>
        if !hasKey fs "unrealizedPnl" then
          some (.obj (objSet fs "unrealizedPnl" (.num pnl)))
        else
          match pyFloat (pyGet fs "unrealizedPnl" (.num 0)) with
          | some v =>
            if v = 0 then some (.obj (objSet fs "unrealizedPnl" (.num pnl)))
            else some (.obj fs)
          | none => none
      | none => some (.obj fs)
    else none
  | _ => none

/-- The recognized account-state source tags. -/
def ACCOUNT_STATE_TAGS : List String := ["userState", "clearinghouseState", "accountState"]

/-- One iteration of the merge loop in scrape_hyperliquid_data over
`all_data.items()`: within a single iteration the flat-"positions" branch
extends the PnL index, then the account-state branch appends the (possibly
PnL-patched) records of a dict body holding "assetPositions". -/
def sourceStep (st : PnlIndex × List JValue) (src : String × JValue) :
    Option (PnlIndex × List JValue) := do
  let idx ←
    if src.1 = "positions" then
      match src.2 with
      | .arr xs => xs.foldlM positionsStep st.1
      | _ => pure st.1
    else pure st.1
  if src.1 ∈ ACCOUNT_STATE_TAGS then
    match src.2 with
    | .obj fs =>
      if hasKey fs "assetPositions" then do
        let items ← pyIter (pyGet fs "assetPositions" .null)
        let recs ← items.mapM (accountStep idx)
        return (idx, st.2 ++ recs)
      else return (idx, st.2)
    | _ => return (idx, st.2)
  else return (idx, st.2)

/-- The merge section of scrape_hyperliquid_data, as a function of the
insertion-ordered `all_data` (payload_type, body) pairs.  `none` is the
function's `None` return: an exception caught by the outer handler, or an empty
combined list. -/
def scrapeMerge (all_data : List (String × JValue)) : Option JValue := do
  let st ← all_data.foldlM sourceStep (([], []) : PnlIndex × List JValue)
  if st.2.isEmpty then none
  else return .obj [("assetPositions", .arr st.2)]

/-- The payload types of config.API_ENDPOINTS in declaration order (the
"v2_positions" entry has no payload_type and is skipped by the scrape loop). -/
def SCRAPE_SOURCE_ORDER : List String :=
  ["clearinghouseState", "userState", "positions", "accountState",
   "marginDetails", "fundingHistory", "allMids"]

/-- `all_data` as built by the scrape loop: the body of each endpoint that
answered 200 (`none` = error or non-200), keyed by its payload type, inserted
in endpoint declaration order. -/
def allDataFor (responses : String → Option JValue) : List (String × JValue) :=
  SCRAPE_SOURCE_ORDER.filterMap (fun k => (responses k).map (fun v => (k, v)))

/-! ### AlertManager.remove_alert -/

/-- One stored alert (an untyped dict carrying at least an 'id' after
add_alert). -/
abbrev Alert := List (String × JValue)

/-- The AlertManager registry: chat user id → that user's alert list. -/
abbrev AlertRegistry := List (ℕ × List Alert)

/-- `user_id in self.alerts`. -/
def regHasUser (st : AlertRegistry) (u : ℕ) : Bool := st.any (fun p => p.1 = u)

/-- `self.alerts[u]` (empty when absent; only read under a presence check). -/
def regGet (st : AlertRegistry) (u : ℕ) : List Alert :=
  ((st.find? (fun p => p.1 = u)).map (fun p => p.2)).getD []

/-- `self.alerts[u] = l`: replace in place or append. -/
def regSet (st : AlertRegistry) (u : ℕ) (l : List Alert) : AlertRegistry :=
  if regHasUser st u then st.map (fun p => if p.1 = u then (u, l) else p)
  else st ++ [(u, l)]

/-- The list-comprehension filter `a.get('id') != alert_id`: only an equal
string compares equal to the id. -/
def alertKept (a : Alert) (alert_id : String) : Bool :=
  match lookupField a "id" with
  | some v => !scalarEq v (.str alert_id)
  | none => true

/-- AlertManager.remove_alert: when the user is registered, rewrite the user's
list keeping the alerts whose id differs and report True; otherwise leave the
registry untouched and report False. -/
def remove_alert (st : AlertRegistry) (user_id : ℕ) (alert_id : String) :
    AlertRegistry × Bool :=
  if regHasUser st user_id then
    (regSet st user_id ((regGet st user_id).filter (fun a => alertKept a alert_id)), true)
  else (st, false)

/-! ### Concrete payloads used by the reconciliation scenarios -/

/-- A flat "positions" source body: coin BTC with unrealizedPnl 42. -/
def flatBTC42 : JValue :=
  .arr [.obj [("coin", .str "BTC"), ("unrealizedPnl", .num 42)]]

/-- An account-state source body: a BTC record with unrealizedPnl 0. -/
def acctBTC0 : JValue :=
  .obj [("assetPositions", .arr [.obj [("coin", .str "BTC"), ("unrealizedPnl", .num 0)]])]

/-- Endpoint responses in which only the "positions" and "accountState"
endpoints answer. -/
def posAcctResponses (k : String) : Option JValue :=
  if k = "positions" then some flatBTC42
  else if k = "accountState" then some acctBTC0 else none

/-- Endpoint responses in which only the "userState" and "positions" endpoints
answer. -/
def userPosResponses (k : String) : Option JValue :=
  if k = "userState" then some acctBTC0
  else if k = "positions" then some flatBTC42 else none

/-- The flat raw-record shape that carries a normalized record's fields back
under the raw keys (the shape `extract_position_data` reads when the record is
flat). -/
def toRawRecord (d : PositionData) : List (String × JValue) :=
  [("coin", d.coin), ("szi", .num d.size), ("entryPx", .num d.entry_price),
   ("leverage", .num d.leverage), ("unrealizedPnl", .num d.unrealized_pnl),
   ("liquidationPx", .num d.liquidation_price)]

/-- No "coin" key inside a nested `position` dict (vacuously true when the
nested value is absent or not a dict). -/
def nestedCoinAbsent (position : List (String × JValue)) : Bool :=
  match lookupField position "position" with
  | some (.obj fs) => !hasKey fs "coin"
  | _ => true

/-- The documented field ranges of a normalized record: non-negative entry and
liquidation prices, leverage at least 1. -/
def rangeOK (d : PositionData) : Prop :=
  0 ≤ d.entry_price ∧ 1 ≤ d.leverage ∧ 0 ≤ d.liquidation_price

/-! ### Helper lemmas -/

theorem pyFloatStr_125 : pyFloatStr "12.5" = some (25/2) := by
  rw [show pyFloatStr "12.5" = some (((12 : ℕ) : ℚ) + ((5 : ℕ) : ℚ) / (10 : ℚ) ^ (1 : ℕ)) from rfl]
  norm_num

theorem lookupField_eq_none {fs : List (String × JValue)} {k : String}
    (h : hasKey fs k = false) : lookupField fs k = none := by
  unfold lookupField
  rw [List.find?_eq_none.mpr]
  · rfl
  · intro p hp hpk
    rw [hasKey, List.any_eq_false] at h
    exact absurd hpk (h p hp)

/-! ### Claim theorems -/

/-- C3: for the input record {"szi": "1", "liquidationPx": "abc"} the extractor
does NOT return a defaulted record — the unguarded `float` on `liquidationPx`
raises and the outer handler returns `None`, which then fails the caller
(`position_data['coin']` on `None` raises).  The guarded fields around it show
the intended per-field degradation, so the claim is the intent and the missing
guard the slip. -/
theorem extract_liquidation_guard_missing :
    extract_position_data [("szi", .str "1"), ("liquidationPx", .str "abc")] = none := rfl

/-- C9: extraction is round-trip stable — re-extracting the flat raw-record
shape of a normalized record reproduces that record exactly. -/
theorem extract_roundtrip (d : PositionData) :
    extract_position_data (toRawRecord d) = some d := rfl

/-- C4: whenever the probed PnL is zero and entry and current price are
positive, the derived PnL is (current − entry) × |size| × (+1 if long else
−1). -/
theorem pnl_derivation (e c s : ℚ) (he : 0 < e) (hc : 0 < c) :
    derivePnl 0 e c s = (c - e) * |s| * (if 0 < s then 1 else -1) := by
  unfold derivePnl
  rw [if_pos ⟨rfl, he, hc⟩]

/-- C4 witness: entry 100, current 110 gives PnL 50 for size +5 and −50 for
size −5. -/
theorem pnl_derivation_witness :
    (0 : ℚ) < 100 ∧ (0 : ℚ) < 110 ∧
    derivePnl 0 100 110 5 = 50 ∧ derivePnl 0 100 110 (-5) = -50 := by
  refine ⟨by norm_num, by norm_num, ?_, ?_⟩
  · rw [pnl_derivation 100 110 5 (by norm_num) (by norm_num),
      if_pos (by norm_num : (0:ℚ) < 5), abs_of_pos (by norm_num : (0:ℚ) < 5)]
    norm_num
  · rw [pnl_derivation 100 110 (-5) (by norm_num) (by norm_num),
      if_neg (by norm_num : ¬ (0:ℚ) < -5), abs_of_neg (by norm_num : (-5:ℚ) < 0)]
    norm_num

/-- C5: whenever the probed liquidation price is zero, entry price is positive
and leverage exceeds 1, the estimate is entry × (1 − 0.9/leverage) for a long
and entry × (1 + 0.9/leverage) for a short. -/
theorem liq_estimate (e lev s : ℚ) (he : 0 < e) (hl : 1 < lev) :
    estimateLiq 0 e lev s =
      if 0 < s then e * (1 - (9/10) / lev) else e * (1 + (9/10) / lev) := by
  unfold estimateLiq
  rw [if_pos ⟨rfl, he, hl⟩]

/-- C5 witness: entry 100, leverage 10, long gives exactly 91. -/
theorem liq_estimate_witness :
    (0 : ℚ) < 100 ∧ (1 : ℚ) < 10 ∧ estimateLiq 0 100 10 1 = 91 := by
  refine ⟨by norm_num, by norm_num, ?_⟩
  rw [liq_estimate 100 10 1 (by norm_num) (by norm_num),
    if_pos (by norm_num : (0:ℚ) < 1)]
  norm_num

/-- C2 counterexample: `extract_position_data` given szi as the mapping
{"a": "not-a-number", "b": "12.5"} yields size 0 (the default — `float` of a
dict raises TypeError), not the 12.5 the claim promises for every numeric field
parse in position extraction. -/
theorem numeric_mapping_counterexample :
    extract_position_data [("szi", .obj [("a", .str "not-a-number"), ("b", .str "12.5")])] =
      some ⟨.str "Unknown", 0, 0, 1, 0, 0⟩ ∧ (0 : ℚ) ≠ 25/2 :=
  ⟨rfl, by norm_num⟩

/-- C2 amended: only the inline extraction in handle_callback tolerates
mappings — each of its size/entryPx/leverage parses scans a dict for the first
sub-value passing the digit check and yields 12.5 on
{"a": "not-a-number", "b": "12.5"}; bare numbers pass through, the numeric
string "12.5" parses to 12.5, and absence keeps the field's default. -/
theorem bot_numeric_tolerance (dflt : ℚ) :
    botNumField (some (.obj [("a", .str "not-a-number"), ("b", .str "12.5")])) dflt = 25/2 ∧
    (∀ x : ℚ, botNumField (some (.num x)) dflt = x) ∧
    botNumField (some (.str "12.5")) dflt = 25/2 ∧
    botNumField none dflt = dflt := by
  refine ⟨?_, fun x => rfl, ?_, rfl⟩
  · rw [show botNumField (some (.obj [("a", .str "not-a-number"), ("b", .str "12.5")])) dflt
        = (pyFloatStr "12.5").getD dflt from rfl, pyFloatStr_125]
    rfl
  · rw [show botNumField (some (.str "12.5")) dflt = (pyFloatStr "12.5").getD dflt from rfl,
      pyFloatStr_125]
    rfl

/-- C7: a record with no coin at top level and none inside a nested position
dict gets the hardcoded default symbol "BTC" from the coin lookup, which
prefers a truthy non-"Unknown" top-level coin, then the nested coin, then the
default. -/
theorem coin_default_of_missing (position : List (String × JValue))
    (htop : hasKey position "coin" = false)
    (hnested : nestedCoinAbsent position = true) :
    botCoin position = .str "BTC" := by
  have h1 : lookupField position "coin" = none := lookupField_eq_none htop
  unfold nestedCoinAbsent at hnested
  rcases hpd : lookupField position "position" with _ | v
  · simp [botCoin, pyGet, h1, hpd, jTruthy, scalarEq, hasKey]
  · rw [hpd] at hnested
    cases v with
    | obj fs =>
      simp only [Bool.not_eq_eq_eq_not, Bool.not_true] at hnested
      simp [botCoin, pyGet, h1, hpd, jTruthy, scalarEq, hnested]
    | null => simp [botCoin, pyGet, h1, hpd, jTruthy, scalarEq]
    | bool b => simp [botCoin, pyGet, h1, hpd, jTruthy, scalarEq]
    | num x => simp [botCoin, pyGet, h1, hpd, jTruthy, scalarEq]
    | str s => simp [botCoin, pyGet, h1, hpd, jTruthy, scalarEq]
    | arr xs => simp [botCoin, pyGet, h1, hpd, jTruthy, scalarEq]

/-- C7 witness: a record carrying only a nested position dict without coin. -/
theorem coin_default_of_missing_witness :
    hasKey [("position", JValue.obj [("szi", JValue.num 1)])] "coin" = false ∧
    nestedCoinAbsent [("position", JValue.obj [("szi", JValue.num 1)])] = true ∧
    botCoin [("position", JValue.obj [("szi", JValue.num 1)])] = .str "BTC" :=
  ⟨rfl, rfl, coin_default_of_missing _ rfl rfl⟩

/-- C8 counterexample: the extractor does not clamp — a record with entryPx −5
and leverage 0.5 is passed through, violating the documented ranges
(entryPrice ≥ 0, leverage ≥ 1). -/
theorem extract_range_counterexample :
    extract_position_data [("szi", .num 1), ("entryPx", .num (-5)), ("leverage", .num (1/2))] =
      some ⟨.str "Unknown", 1, -5, 1/2, 0, 0⟩ ∧
    ¬ rangeOK ⟨.str "Unknown", 1, -5, 1/2, 0, 0⟩ := by
  refine ⟨rfl, fun h => ?_⟩
  unfold rangeOK at h
  norm_num at h

/-- C8 amended: the documented ranges hold whenever each of entryPx, leverage
and liquidationPx either fails to parse (the in-range defaults 0, 1, 0 are
used) or parses to an in-range value; parsed values are passed through without
clamping. -/
theorem extract_ranges (position pd : List (String × JValue)) (d : PositionData)
    (hpd : posDetails position = some pd)
    (hex : extract_position_data position = some d)
    (he : ∀ q, pyFloat (pyGet pd "entryPx" (.num 0)) = some q → 0 ≤ q)
    (hl : ∀ q, pyFloat (pyGet pd "leverage" (.num 1)) = some q → 1 ≤ q)
    (hq : ∀ q, pyFloat (pyGet pd "liquidationPx" (.num 0)) = some q → 0 ≤ q) :
    rangeOK d := by
  have hent : (0 : ℚ) ≤ (pyFloat (pyGet pd "entryPx" (.num 0))).getD 0 := by
    rcases hE : pyFloat (pyGet pd "entryPx" (.num 0)) with _ | qe
    · simp
    · simpa using he qe hE
  have hlev : (1 : ℚ) ≤ (pyFloat (pyGet pd "leverage" (.num 1))).getD 1 := by
    rcases hL : pyFloat (pyGet pd "leverage" (.num 1)) with _ | ql
    · simp
    · simpa using hl ql hL
  simp only [extract_position_data, hpd] at hex
  rcases hk : hasKey pd "liquidationPx" with _ | _ <;> rw [hk] at hex
  · simp only [Bool.false_eq_true, if_false, Option.some.injEq] at hex
    subst hex
    exact ⟨hent, hlev, le_refl 0⟩
  · simp only [if_true] at hex
    rcases hL : pyFloat (pyGet pd "liquidationPx" (.num 0)) with _ | qq <;> rw [hL] at hex
    · exact absurd hex (by simp)
    · simp only [Option.some.injEq] at hex
      subst hex
      exact ⟨hent, hlev, hq qq hL⟩

/-- C8 witness: a flat record with only szi present takes the in-range
defaults. -/
theorem extract_ranges_witness :
    extract_position_data [("szi", JValue.num 2)] = some ⟨.str "Unknown", 2, 0, 1, 0, 0⟩ ∧
    rangeOK (⟨.str "Unknown", 2, 0, 1, 0, 0⟩ : PositionData) := by
  refine ⟨rfl, ?_⟩
  refine extract_ranges [("szi", JValue.num 2)] [("szi", JValue.num 2)] _ rfl rfl ?_ ?_ ?_
  · intro q hq
    rw [show pyFloat (pyGet [("szi", JValue.num 2)] "entryPx" (JValue.num 0)) = some (0 : ℚ)
        from rfl] at hq
    obtain rfl := Option.some.inj hq
    norm_num
  · intro q hq
    rw [show pyFloat (pyGet [("szi", JValue.num 2)] "leverage" (JValue.num 1)) = some (1 : ℚ)
        from rfl] at hq
    obtain rfl := Option.some.inj hq
    norm_num
  · intro q hq
    rw [show pyFloat (pyGet [("szi", JValue.num 2)] "liquidationPx" (JValue.num 0)) = some (0 : ℚ)
        from rfl] at hq
    obtain rfl := Option.some.inj hq
    norm_num

/-- C6: get_account_info tries the v2 endpoint, then the clearinghouse-state
endpoint, then the scrape, each unusable attempt (error, non-200, or unusable
body, modelled as `none` / a falling-through result) moving on to the next,
and returns the fixed sample dataset when everything fails — so it always
returns a payload. -/
theorem account_info_fallback :
    (∀ v2 ch sc p, v2Attempt v2 = some p → get_account_info v2 ch sc = p) ∧
    (∀ v2 ch sc p, v2Attempt v2 = none → chAttempt ch = some p →
      get_account_info v2 ch sc = p) ∧
    (∀ v2 ch sc p, v2Attempt v2 = none → chAttempt ch = none → sc = some p →
      jTruthy p = true → get_account_info v2 ch sc = p) ∧
    (∀ v2 ch, v2Attempt v2 = none → chAttempt ch = none →
      get_account_info v2 ch none = SAMPLE_ACCOUNT_DATA) ∧
    (∀ v2 ch p, v2Attempt v2 = none → chAttempt ch = none → jTruthy p = false →
      get_account_info v2 ch (some p) = SAMPLE_ACCOUNT_DATA) := by
  refine ⟨?_, ?_, ?_, ?_, ?_⟩
  · intro v2 ch sc p h
    simp [get_account_info, h]
  · intro v2 ch sc p h1 h2
    simp [get_account_info, h1, h2]
  · intro v2 ch sc p h1 h2 h3 h4
    simp [get_account_info, h1, h2, h3, h4]
  · intro v2 ch h1 h2
    simp [get_account_info, h1, h2]
  · intro v2 ch p h1 h2 h3
    simp [get_account_info, h1, h2, h3]

/-- C6 witness: concrete runs exercising each fallback stage. -/
theorem account_info_fallback_witness :
    get_account_info (some (.arr [.obj []])) none none =
      .obj [("assetPositions", .arr [.obj [
        ("coin", .str "Unknown"),
        ("position", .obj [("coin", .str "Unknown"), ("szi", .num 0),
          ("entryPx", .num 0), ("leverage", .num 1)]),
        ("unrealizedPnl", .num 0)]])] ∧
    get_account_info none (some acctBTC0) none = acctBTC0 ∧
    get_account_info none none (some acctBTC0) = acctBTC0 ∧
    get_account_info none none none = SAMPLE_ACCOUNT_DATA ∧
    get_account_info none none (some (.obj [])) = SAMPLE_ACCOUNT_DATA :=
  ⟨account_info_fallback.1 _ none none _ rfl,
   account_info_fallback.2.1 none _ none _ rfl rfl,
   account_info_fallback.2.2.1 none none _ _ rfl rfl rfl rfl,
   account_info_fallback.2.2.2.1 none none rfl rfl,
   account_info_fallback.2.2.2.2 none none _ rfl rfl rfl⟩

theorem regGet_append (st : AlertRegistry) (u : ℕ) (l : List Alert)
    (h : regHasUser st u = false) : regGet (st ++ [(u, l)]) u = l := by
  induction st with
  | nil => simp [regGet]
  | cons p rest ih =>
    rw [regHasUser, List.any_cons] at h
    simp only [Bool.or_eq_false_iff, decide_eq_false_iff_not] at h
    rw [List.cons_append, regGet, List.find?_cons_of_neg]
    · exact ih h.2
    · simp [h.1]

theorem regGet_replace (st : AlertRegistry) (u : ℕ) (l : List Alert)
    (h : regHasUser st u = true) :
    regGet (st.map (fun p => if p.1 = u then (u, l) else p)) u = l := by
  induction st with
  | nil => simp [regHasUser] at h
  | cons p rest ih =>
    by_cases hp : p.1 = u
    · simp only [List.map_cons, if_pos hp]
      rw [regGet, List.find?_cons_of_pos]
      · rfl
      · simp
    · simp only [List.map_cons, if_neg hp]
      rw [regGet, List.find?_cons_of_neg]
      · refine ih ?_
        simpa [regHasUser, hp] using h
      · simp [hp]

theorem regGet_regSet (st : AlertRegistry) (u : ℕ) (l : List Alert) :
    regGet (regSet st u l) u = l := by
  unfold regSet
  rcases h : regHasUser st u with _ | _
  · rw [if_neg (by simp)]
    exact regGet_append st u l h
  · rw [if_pos rfl]
    exact regGet_replace st u l h

/-- C10: remove_alert reports True exactly when the user has a registry entry —
even when no stored alert carries the id — in which case the stored list
becomes the prior list with every alert whose id equals alert_id removed; it
reports False, leaving the registry untouched, only when the user has no
entry. -/
theorem remove_alert_spec (st : AlertRegistry) (u : ℕ) (aid : String) :
    (regHasUser st u = true →
      (remove_alert st u aid).2 = true ∧
      regGet (remove_alert st u aid).1 u = (regGet st u).filter (fun a => alertKept a aid)) ∧
    (regHasUser st u = false →
      (remove_alert st u aid).2 = false ∧ (remove_alert st u aid).1 = st) := by
  constructor
  · intro h
    unfold remove_alert
    rw [if_pos h]
    exact ⟨rfl, regGet_regSet st u _⟩
  · intro h
    unfold remove_alert
    rw [if_neg (by simp [h])]
    exact ⟨rfl, rfl⟩

/-- C10 witness: a registered user's matching alert is filtered out and True is
reported; an unregistered user gets False. -/
theorem remove_alert_spec_witness :
    regHasUser [(1, [[("id", JValue.str "1_0")], [("id", JValue.str "1_1")]])] 1 = true ∧
    (remove_alert [(1, [[("id", JValue.str "1_0")], [("id", JValue.str "1_1")]])] 1 "1_0").2
      = true ∧
    regGet (remove_alert [(1, [[("id", JValue.str "1_0")], [("id", JValue.str "1_1")]])]
      1 "1_0").1 1 = [[("id", JValue.str "1_1")]] ∧
    regHasUser [] 2 = false ∧
    (remove_alert ([] : AlertRegistry) 2 "x").2 = false := by
  have h := remove_alert_spec [(1, [[("id", JValue.str "1_0")], [("id", JValue.str "1_1")]])]
    1 "1_0"
  have h2 := remove_alert_spec ([] : AlertRegistry) 2 "x"
  refine ⟨rfl, (h.1 rfl).1, ?_, rfl, (h2.2 rfl).1⟩
  rw [(h.1 rfl).2]
  rfl

/-- C1 counterexample: with only the userState and positions endpoints
answering, insertion order puts the account-state source first, its records are
processed before the positions index is built, and the merged BTC record keeps
PnL 0 instead of the claimed 42. -/
theorem reconcile_order_counterexample :
    allDataFor userPosResponses = [("userState", acctBTC0), ("positions", flatBTC42)] ∧
    scrapeMerge [("userState", acctBTC0), ("positions", flatBTC42)] =
      some (.obj [("assetPositions",
        .arr [.obj [("coin", .str "BTC"), ("unrealizedPnl", .num 0)]])]) ∧
    scrapeMerge [("userState", acctBTC0), ("positions", flatBTC42)] ≠
      some (.obj [("assetPositions",
        .arr [.obj [("coin", .str "BTC"), ("unrealizedPnl", .num 42)]])]) := by
  refine ⟨rfl, rfl, fun h => ?_⟩
  rw [show scrapeMerge [("userState", acctBTC0), ("positions", flatBTC42)] =
      some (.obj [("assetPositions",
        .arr [.obj [("coin", .str "BTC"), ("unrealizedPnl", .num 0)]])]) from rfl] at h
  simp only [Option.some.injEq, JValue.obj.injEq, JValue.arr.injEq, JValue.num.injEq,
    List.cons.injEq, Prod.mk.injEq, and_true, true_and] at h
  norm_num at h

/-- C1 amended: the index and the overwrite run in a single pass over the
sources in endpoint order, so an account-state record is patched only when a
positions source was processed before it; with the positions source first the
merged BTC record's PnL becomes 42 for every recognized account-state tag, and
the configured endpoint order does place "positions" before "accountState". -/
theorem reconcile_positions_first (t : String) (h : t ∈ ACCOUNT_STATE_TAGS) :
    scrapeMerge [("positions", flatBTC42), (t, acctBTC0)] =
      some (.obj [("assetPositions",
        .arr [.obj [("coin", .str "BTC"), ("unrealizedPnl", .num 42)]])]) ∧
    allDataFor posAcctResponses = [("positions", flatBTC42), ("accountState", acctBTC0)] := by
  refine ⟨?_, rfl⟩
  simp only [ACCOUNT_STATE_TAGS, List.mem_cons, List.mem_singleton,
    List.not_mem_nil, or_false] at h
  rcases h with rfl | rfl | rfl <;> rfl

/-- C1 amended witness: the accountState tag gets the patched PnL. -/
theorem reconcile_positions_first_witness :
    "accountState" ∈ ACCOUNT_STATE_TAGS ∧
    scrapeMerge [("positions", flatBTC42), ("accountState", acctBTC0)] =
      some (.obj [("assetPositions",
        .arr [.obj [("coin", .str "BTC"), ("unrealizedPnl", .num 42)]])]) :=
  ⟨by simp [ACCOUNT_STATE_TAGS],
   (reconcile_positions_first "accountState" (by simp [ACCOUNT_STATE_TAGS])).1⟩

end Perpscope
